import Mathlib

/-!
Verification of the sourcon RCON protocol engine.

This file shallowly embeds the packet codec (src/packet.rs) and the client
session protocol (src/client.rs) of the sourcon crate. Machine integers are
modelled as `Int`/`Nat` with explicit wrapping (release-mode semantics for
arithmetic overflow: `as` casts and overflowing `+`/`-` wrap); Rust strings
are modelled as their UTF-8 byte lists; fallible operations return sum
types; a statically reachable panic (out-of-bounds slice index) is modelled
as an explicit `panicked` outcome.
-/

/-- PacketType from src/packet.rs: the four rcon packet kinds. -/
inductive PacketType where
  | Auth
  | AuthResponse
  | Exec
  | Response
deriving DecidableEq

/-- RconError from src/error.rs. Variants that carry `std::io::Error` or
timeout payloads are modelled without payloads (the payloads never influence
control flow in the embedded code). -/
inductive RconError where
  | UnknownPacketType (n : Int)
  | MalformedPacketHeader
  | MalformedPacketBody
  | UnreachableHost
  | SendError
  | ReceiveError
  | AuthenticationError
  | TimeoutError
deriving DecidableEq

/-- The numeric wire code of a packet type, from `PacketType::to_le_bytes`
in src/packet.rs: Auth = 3, Exec = 2, AuthResponse = 2 (deliberately the
same code), Response = 0. -/
def PacketType.code : PacketType → Int
  | PacketType.Auth => 3
  | PacketType.Exec => 2
  | PacketType.AuthResponse => 2
  | PacketType.Response => 0

/-- `TryInto<PacketType> for i32` from src/packet.rs: 3 → Auth,
2 → AuthResponse (ambiguity resolved away from Exec), 0 → Response,
anything else is an UnknownPacketType error. -/
def tryIntoPacketType (n : Int) : Except RconError PacketType :=
  if n = 3 then Except.ok PacketType.Auth
  else if n = 2 then Except.ok PacketType.AuthResponse
  else if n = 0 then Except.ok PacketType.Response
  else Except.error (RconError.UnknownPacketType n)

/-- Wrap an integer into the signed 32-bit range, modelling release-mode
(two's-complement wrapping) i32 arithmetic. -/
def wrap32 (n : Int) : Int :=
  (n + 2147483648) % 4294967296 - 2147483648

/-- The value of an i32 reinterpreted as a usize (`as usize` in Rust:
sign-extend to 64 bits, then reinterpret as unsigned). -/
def i32AsUsize (n : Int) : Nat :=
  (n % 18446744073709551616).toNat

/-- `i32::to_le_bytes`: the four little-endian bytes of a signed 32-bit
integer. -/
def toLeBytes (n : Int) : List Nat :=
  let m := (n % 4294967296).toNat
  [m % 256, m / 256 % 256, m / 65536 % 256, m / 16777216 % 256]

/-- `i32::from_le_bytes`: reassemble a signed 32-bit integer from four
little-endian bytes. -/
def fromLeBytes (b0 b1 b2 b3 : Nat) : Int :=
  let m := b0 + 256 * b1 + 65536 * b2 + 16777216 * b3
  if m < 2147483648 then (m : Int) else (m : Int) - 4294967296

/-- `i32::from_le_bytes` applied to a 4-byte slice. The `try_into`
conversion of the slice to `[u8; 4]` cannot fail in `Packet::unpack`
(constant ranges 0..=3, 4..=7, 8..=11 of a `[u8; 4096]`), so the non-4
case is unreachable there and defaults to 0. -/
def fromLeBytesSlice (bs : List Nat) : Int :=
  match bs with
  | [b0, b1, b2, b3] => fromLeBytes b0 b1 b2 b3
  | _ => 0

/-- Rust slice indexing `l[start..=start+3]`: four bytes at `start`. -/
def slice4 (l : List Nat) (start : Nat) : List Nat :=
  (l.drop start).take 4

/-- Whether a byte is a UTF-8 continuation byte (0x80–0xBF). -/
def utf8Cont (b : Nat) : Bool :=
  128 ≤ b && b ≤ 191

/-- Validity of a byte list as UTF-8, exactly the condition under which
`str::from_utf8` succeeds (RFC 3629 well-formedness, rejecting overlongs,
surrogates and code points above U+10FFFF). -/
def utf8Valid : List Nat → Bool
  | [] => true
  | b :: l =>
    if b ≤ 127 then utf8Valid l
    else if b < 194 then false
    else if b ≤ 223 then
      match l with
      | b1 :: l1 => utf8Cont b1 && utf8Valid l1
      | [] => false
    else if b ≤ 239 then
      match l with
      | b1 :: b2 :: l2 =>
        (if b = 224 then 160 ≤ b1 && b1 ≤ 191
         else if b = 237 then 128 ≤ b1 && b1 ≤ 159
         else utf8Cont b1) && utf8Cont b2 && utf8Valid l2
      | _ => false
    else if b ≤ 244 then
      match l with
      | b1 :: b2 :: b3 :: l3 =>
        (if b = 240 then 144 ≤ b1 && b1 ≤ 191
         else if b = 244 then 128 ≤ b1 && b1 ≤ 143
         else utf8Cont b1) && utf8Cont b2 && utf8Cont b3 && utf8Valid l3
      | _ => false
    else false

/-- Packet from src/packet.rs: id, packet type and optional body. The body
is a Rust `Option<String>`, modelled as an optional list of UTF-8 bytes. -/
structure Packet where
  id : Int
  packet_type : PacketType
  body : Option (List Nat)
deriving DecidableEq

/-- `Packet::new` always wraps the given body slice in `Some`. -/
def Packet.new (id : Int) (packet_type : PacketType) (body : List Nat) : Packet :=
  Packet.mk id packet_type (some body)

/-- `Packet::size`: BASE_PACKET_SIZE (10) for an absent body, otherwise the
body byte length (cast to i32, wrapping) plus 10 (i32 addition, wrapping). -/
def Packet.size (p : Packet) : Int :=
  match p.body with
  | none => 10
  | some body => wrap32 (wrap32 (body.length : Int) + 10)

/-- `Packet::pack`: size, id and type code as little-endian i32s, then the
body bytes (empty when absent), then the two 0x00 terminator bytes. -/
def Packet.pack (p : Packet) : List Nat :=
  toLeBytes p.size ++ toLeBytes p.id ++ toLeBytes p.packet_type.code
    ++ p.body.getD [] ++ [0, 0]

/-- Outcome of `Packet::unpack`: a packet, a typed error, or a panic
(reached when a slice index is out of bounds). -/
inductive UnpackResult where
  | ok (p : Packet)
  | err (e : RconError)
  | panicked
deriving DecidableEq

/-- Rust slice indexing `l[..=lastIdx]`: the first `lastIdx + 1` elements,
panicking (`none`) when the slice is shorter than that. -/
def sliceToInclusive (l : List Nat) (lastIdx : Nat) : Option (List Nat) :=
  if lastIdx + 1 ≤ l.length then some (l.take (lastIdx + 1)) else none

/-- `Packet::unpack` from src/packet.rs, on a 4096-byte `RawPacket` buffer
(the header slices at constant ranges 0..=3, 4..=7, 8..=11 of a `[u8; 4096]`
cannot fail, so the bytes are read directly).

Mirrors the source: `size` from bytes 0–3; `body_size = size - 10` (i32);
`last_elem = body_size as usize + 12` (usize, wrapping in release mode);
`id` from bytes 4–7; the type code from bytes 8–11 via `TryInto`;
`raw_body = incoming[12..]`; body absent when `last_elem == 12`, otherwise
the slice `raw_body[..=last_elem]` decoded as UTF-8. -/
def Packet.unpack (incoming : List Nat) : UnpackResult :=
  let size := fromLeBytesSlice (slice4 incoming 0)
  let body_size := wrap32 (size - 10)
  let last_elem : Nat := (i32AsUsize body_size + 12) % 18446744073709551616
  let id := fromLeBytesSlice (slice4 incoming 4)
  let rawType := fromLeBytesSlice (slice4 incoming 8)
  match tryIntoPacketType rawType with
  | Except.error e => UnpackResult.err e
  | Except.ok packet_type =>
    let raw_body := incoming.drop 12
    if last_elem = 12 then
      UnpackResult.ok (Packet.mk id packet_type none)
    else
      match sliceToInclusive raw_body last_elem with
      | none => UnpackResult.panicked
      | some bs =>
        if utf8Valid bs then UnpackResult.ok (Packet.mk id packet_type (some bs))
        else UnpackResult.err RconError.MalformedPacketBody

/-- Place an encoded packet at the start of a zero-initialised 4096-byte
read buffer, as `read_from_stream` in src/client.rs does
(`let mut buf = [0; 4096]` filled by `try_read`). -/
def padTo4096 (l : List Nat) : List Nat :=
  l ++ List.replicate (4096 - l.length) 0

/-- Client session state from src/client.rs: the packet-id counter
`next_packet_id`. The TCP stream and the timeout duration are transport and
real-time features outside the shallow embedding; the packets read from the
stream are modelled below as a list of decoded packets in arrival order. -/
structure Client where
  next_packet_id : Int
deriving DecidableEq

/-- The session state `ClientBuilder::connect` constructs after a
successful handshake: `Client { next_packet_id: 100 }` (ids 1–99 are
reserved for auth, per the source comment). -/
def connectedClient : Client :=
  Client.mk 100

/-- `Client::create_packet`: increment the id counter (release-mode i32
increment, wrapping), then build an Exec packet carrying `command` under
the new id. Returns the packet and the updated session state. -/
def create_packet (c : Client) (command : List Nat) : Packet × Client :=
  let nid := wrap32 (c.next_packet_id + 1)
  (Packet.new nid PacketType.Exec command, Client.mk nid)

/-- The read loop of `Client::execute`: collect replies until one bears the
tracking packet's id; that packet is consumed and contributes nothing.
`none` models a reply stream on which the loop never observes the tracking
id (it would keep blocking on the socket). -/
def executeLoop (tracking_id : Int) : List Packet → Option (List Packet)
  | [] => none
  | response :: rest =>
    if response.id = tracking_id then some []
    else (executeLoop tracking_id rest).map (fun rs => response :: rs)

/-- `Client::execute` (the body of `Client::command`, which only adds the
timeout wrapper): allocate the command packet, then the tracking packet;
write both in that order (first component: the packets written); then read
replies until the tracking id appears and concatenate their bodies in
receipt order, an absent body contributing the empty string. The second
component is the `Response` body together with the updated session. -/
def Client.execute (c : Client) (command : List Nat) (replies : List Packet) :
    List Packet × Option (List Nat × Client) :=
  let command_packet := (create_packet c command).1
  let c1 := (create_packet c command).2
  let tracking_packet := (create_packet c1 []).1
  let c2 := (create_packet c1 []).2
  ([command_packet, tracking_packet],
    (executeLoop tracking_packet.id replies).map
      (fun responses => ((responses.map (fun p => p.body.getD [])).flatten, c2)))

/-- The read loop of `Client::auth`: a reply with id -1 is an
authentication failure; a reply whose id equals the auth packet's id and
whose type is AuthResponse completes the handshake; any other reply is
skipped. `none` models a reply stream on which the loop never returns. -/
def authLoop (auth_id : Int) : List Packet → Option (Except RconError Unit)
  | [] => none
  | response :: rest =>
    if response.id = -1 then some (Except.error RconError.AuthenticationError)
    else if response.id = auth_id ∧ response.packet_type = PacketType.AuthResponse then
      some (Except.ok ())
    else authLoop auth_id rest

/-- `Client::auth`: write a single Auth packet with id 1 carrying the
password (first component: the packets written, in order), then run the
read loop over the replies. -/
def Client.auth (password : List Nat) (replies : List Packet) :
    List Packet × Option (Except RconError Unit) :=
  let auth_packet := Packet.new 1 PacketType.Auth password
  ([auth_packet], authLoop auth_packet.id replies)

/-- The ids assigned by `n` successive `create_packet` calls starting from
session state `c`, in order of assignment. -/
def idsAfter (c : Client) : Nat → List Int
  | 0 => []
  | Nat.succ n => (create_packet c []).1.id :: idsAfter (create_packet c []).2 n

/-- Wrapping is the identity on values already in the signed 32-bit range. -/
theorem wrap32_id (n : Int) (h1 : -2147483648 ≤ n) (h2 : n < 2147483648) : wrap32 n = n := by
  unfold wrap32
  omega

/-- Dropping the 12 header bytes of a zero-padded buffer whose meaningful
prefix covers the header. -/
theorem drop12_pad (xs : List Nat) (m : Nat) (h : 12 ≤ xs.length) :
    (xs ++ List.replicate m 0).drop 12 = xs.drop 12 ++ List.replicate m 0 := by
  rw [List.drop_append_eq_append_drop, Nat.sub_eq_zero_of_le h, List.drop_zero]

/-- Dropping the 12 header bytes of a zero-padded buffer whose meaningful
prefix ends inside the header. -/
theorem drop12_pad_short (xs : List Nat) (m : Nat) (h : xs.length ≤ 12) :
    (xs ++ List.replicate m 0).drop 12 = List.replicate (m - (12 - xs.length)) 0 := by
  rw [List.drop_append_eq_append_drop, List.drop_eq_nil_of_le h, List.nil_append,
    List.drop_replicate]

/-- Taking an initial segment of a zero-padded buffer that lies inside the
meaningful prefix. -/
theorem take_pad_left (xs : List Nat) (m k : Nat) (h : k ≤ xs.length) :
    (xs ++ List.replicate m 0).take k = xs.take k := by
  rw [List.take_append_eq_append_take, Nat.sub_eq_zero_of_le h, List.take_zero,
    List.append_nil]

/-- A four-byte header slice taken inside the meaningful prefix of a
zero-padded buffer. -/
theorem slice4_pad_left (xs : List Nat) (m k : Nat) (h : k + 4 ≤ xs.length) :
    slice4 (xs ++ List.replicate m 0) k = slice4 xs k := by
  unfold slice4
  rw [List.drop_append_eq_append_drop, List.take_append_eq_append_take,
    List.length_drop, Nat.sub_eq_zero_of_le (by omega), List.take_zero, List.append_nil]

/-- A four-byte header slice taken entirely from the zero padding. -/
theorem slice4_pad_right (xs : List Nat) (m k : Nat) (h : xs.length ≤ k)
    (h2 : k + 4 ≤ xs.length + m) :
    slice4 (xs ++ List.replicate m 0) k = List.replicate 4 0 := by
  unfold slice4
  rw [List.drop_append_eq_append_drop, List.drop_eq_nil_of_le h, List.nil_append,
    List.drop_replicate, List.take_replicate,
    show min 4 (m - (k - xs.length)) = 4 from by omega]

/-- An inclusive slice of a zero-padded list that stays in bounds. -/
theorem sliceToInclusive_pad (xs : List Nat) (m k : Nat)
    (h1 : xs.length ≤ k + 1) (h2 : k + 1 ≤ xs.length + m) :
    sliceToInclusive (xs ++ List.replicate m 0) k
      = some (xs ++ List.replicate (k + 1 - xs.length) 0) := by
  unfold sliceToInclusive
  rw [if_pos (by rw [List.length_append, List.length_replicate]; omega),
    List.take_append_eq_append_take, List.take_of_length_le h1, List.take_replicate,
    show min (k + 1 - xs.length) m = k + 1 - xs.length from by omega]

/-- An inclusive slice of an all-zero list that runs out of bounds. -/
theorem sliceToInclusive_replicate_oob (n k : Nat) (h : n ≤ k) :
    sliceToInclusive (List.replicate n 0) k = none := by
  unfold sliceToInclusive
  rw [if_neg]
  rw [List.length_replicate]
  omega

/-- An inclusive in-bounds slice of an all-zero list. -/
theorem sliceToInclusive_replicate (n k : Nat) (h : k + 1 ≤ n) :
    sliceToInclusive (List.replicate n 0) k = some (List.replicate (k + 1) 0) := by
  unfold sliceToInclusive
  rw [if_pos (by rw [List.length_replicate]; omega), List.take_replicate,
    show min (k + 1) n = k + 1 from by omega]

/-- The auth read loop skips a packet that neither signals failure nor
completes the handshake. -/
theorem authLoop_skip (aid : Int) (r : Packet) (rest : List Packet)
    (h1 : r.id ≠ -1) (h2 : ¬(r.id = aid ∧ r.packet_type = PacketType.AuthResponse)) :
    authLoop aid (r :: rest) = authLoop aid rest := by
  simp [authLoop, h1, h2]

/-- The auth read loop succeeds exactly when the reply stream contains a
packet with id 1 and type AuthResponse preceded by no failure signal and no
earlier completing packet. -/
theorem authLoop_ok_iff (replies : List Packet) :
    authLoop 1 replies = some (Except.ok ()) ↔
      ∃ pre p post, replies = pre ++ p :: post ∧ p.id = 1 ∧
        p.packet_type = PacketType.AuthResponse ∧
        ∀ q ∈ pre, q.id ≠ -1 ∧ ¬(q.id = 1 ∧ q.packet_type = PacketType.AuthResponse) := by
  induction replies with
  | nil =>
    constructor
    · intro h
      simp [authLoop] at h
    · rintro ⟨pre, p, post, heq, -, -, -⟩
      exact absurd heq (by simp)
  | cons r rest ih =>
    by_cases h1 : r.id = -1
    · have e1 : authLoop 1 (r :: rest) = some (Except.error RconError.AuthenticationError) := by
        simp [authLoop, h1]
      rw [e1]
      constructor
      · intro h
        exact absurd (Option.some.inj h) (by simp)
      · rintro ⟨pre, p, post, heq, hid, hty, hpre⟩
        cases pre with
        | nil =>
          rw [List.nil_append] at heq
          injection heq with hrp hrest
          rw [← hrp] at hid
          rw [h1] at hid
          exact absurd hid (by norm_num)
        | cons q pre1 =>
          rw [List.cons_append] at heq
          injection heq with hrq hrest
          have hq := hpre q (List.mem_cons_self q pre1)
          rw [hrq] at h1
          exact absurd h1 hq.1
    · by_cases h2 : r.id = 1 ∧ r.packet_type = PacketType.AuthResponse
      · have e2 : authLoop 1 (r :: rest) = some (Except.ok ()) := by
          simp [authLoop, h1, h2.1, h2.2]
        rw [e2]
        constructor
        · intro _
          exact ⟨[], r, rest, rfl, h2.1, h2.2, by simp⟩
        · intro _
          rfl
      · rw [authLoop_skip 1 r rest h1 h2, ih]
        constructor
        · rintro ⟨pre, p, post, heq, hid, hty, hpre⟩
          refine ⟨r :: pre, p, post, by rw [heq, List.cons_append], hid, hty, ?_⟩
          intro q hq
          rcases List.mem_cons.mp hq with hq1 | hq1
          · rw [hq1]
            exact ⟨h1, h2⟩
          · exact hpre q hq1
        · rintro ⟨pre, p, post, heq, hid, hty, hpre⟩
          cases pre with
          | nil =>
            rw [List.nil_append] at heq
            injection heq with hrp hrest
            rw [← hrp] at hid hty
            exact absurd ⟨hid, hty⟩ h2
          | cons q pre1 =>
            rw [List.cons_append] at heq
            injection heq with hrq hrest
            refine ⟨pre1, p, post, hrest, hid, hty, ?_⟩
            intro x hx
            exact hpre x (List.mem_cons_of_mem q hx)

/-- The auth read loop fails with an authentication error as soon as a
packet with id -1 arrives, provided no earlier packet completed the
handshake. -/
theorem authLoop_err (pre : List Packet) (p : Packet) (post : List Packet)
    (hp : p.id = -1)
    (hpre : ∀ q ∈ pre, ¬(q.id = 1 ∧ q.packet_type = PacketType.AuthResponse)) :
    authLoop 1 (pre ++ p :: post) = some (Except.error RconError.AuthenticationError) := by
  induction pre with
  | nil =>
    simp [authLoop, hp]
  | cons q pre1 ih =>
    by_cases hq : q.id = -1
    · simp [authLoop, hq]
    · rw [List.cons_append, authLoop_skip 1 q _ hq (hpre q (List.mem_cons_self q pre1))]
      exact ih (fun x hx => hpre x (List.mem_cons_of_mem q hx))

/-- When the reply stream contains the tracking id, the execute read loop
returns exactly the packets before its first occurrence. -/
theorem executeLoop_eq_takeWhile (tid : Int) (replies : List Packet)
    (h : ∃ p ∈ replies, p.id = tid) :
    executeLoop tid replies = some (replies.takeWhile (fun p => p.id != tid)) := by
  induction replies with
  | nil =>
    simp at h
  | cons r rest ih =>
    by_cases hr : r.id = tid
    · simp [executeLoop, hr, List.takeWhile_cons]
    · have h2 : ∃ p ∈ rest, p.id = tid := by
        rcases h with ⟨p, hp, hpid⟩
        rcases List.mem_cons.mp hp with h3 | h3
        · rw [h3] at hpid
          exact absurd hpid hr
        · exact ⟨p, h3, hpid⟩
      simp [executeLoop, hr, ih h2, List.takeWhile_cons]

/-- Closed form of the assigned ids while the counter stays in the signed
32-bit range: n allocations from counter value v assign v+1, v+2, …, v+n. -/
theorem idsAfter_closed (n : Nat) (v : Int) (h1 : -2147483648 ≤ v)
    (h2 : v + n < 2147483648) :
    idsAfter (Client.mk v) n = (List.range n).map (fun k : Nat => v + 1 + (k : Int)) := by
  induction n generalizing v with
  | zero => simp [idsAfter]
  | succ m ih =>
    have hw : wrap32 (v + 1) = v + 1 := wrap32_id _ (by omega) (by omega)
    have hstep : idsAfter (Client.mk v) (m + 1)
        = wrap32 (v + 1) :: idsAfter (Client.mk (wrap32 (v + 1))) m := rfl
    rw [hstep, hw, ih (v + 1) (by omega) (by omega)]
    rw [List.range_succ_eq_map, List.map_cons, List.map_map]
    refine congrArg₂ _ (by simp) ?_
    refine List.map_congr_left ?_
    intro k hk
    simp only [Function.comp_apply]
    push_cast
    ring

/-- C1: the round-trip property fails on the code. Packing the packet
Packet::new(5, Auth, "a") and decoding it from the zero-padded 4096-byte
read buffer yields a body of "a" followed by 13 NUL bytes, not the original
body: unpack reads `raw_body[..=body_size + 12]`, i.e. body_size + 13 bytes
from offset 12, instead of the body_size bytes of the declared body. -/
theorem unpack_pack_roundtrip_appends_nuls :
    Packet.unpack (padTo4096 (Packet.pack (Packet.new 5 PacketType.Auth [97])))
      = UnpackResult.ok (Packet.mk 5 PacketType.Auth (some (97 :: List.replicate 13 0))) ∧
    some (97 :: List.replicate 13 0) ≠ some [97] := by
  constructor
  · rw [show padTo4096 (Packet.pack (Packet.new 5 PacketType.Auth [97]))
        = [11, 0, 0, 0, 5, 0, 0, 0, 3, 0, 0, 0, 97, 0, 0] ++ List.replicate 4081 0 from rfl]
    simp only [Packet.unpack]
    rw [slice4_pad_left [11, 0, 0, 0, 5, 0, 0, 0, 3, 0, 0, 0, 97, 0, 0] 4081 0 (by norm_num),
      slice4_pad_left [11, 0, 0, 0, 5, 0, 0, 0, 3, 0, 0, 0, 97, 0, 0] 4081 4 (by norm_num),
      slice4_pad_left [11, 0, 0, 0, 5, 0, 0, 0, 3, 0, 0, 0, 97, 0, 0] 4081 8 (by norm_num),
      drop12_pad [11, 0, 0, 0, 5, 0, 0, 0, 3, 0, 0, 0, 97, 0, 0] 4081 (by norm_num),
      sliceToInclusive_pad (List.drop 12 [11, 0, 0, 0, 5, 0, 0, 0, 3, 0, 0, 0, 97, 0, 0]) 4081 _
        (by decide) (by decide)]
    decide
  · decide

/-- C2: `Packet::unpack` is not total on 4096-byte buffers. A buffer whose
size field declares 4082 (body_length 4072, within a legitimate 4096-byte
packet) panics on the out-of-bounds slice `raw_body[..=4084]` of the
4084-byte body region, and an all-zero buffer (size 0, body_length -10,
which the spec requires to fail) is decoded as an Ok packet with a
three-NUL-byte garbage body instead of a typed error. -/
theorem unpack_panics_or_garbage_on_bad_size :
    Packet.unpack (padTo4096 [242, 15, 0, 0]) = UnpackResult.panicked ∧
    Packet.unpack (padTo4096 [])
      = UnpackResult.ok (Packet.mk 0 PacketType.Response (some [0, 0, 0])) := by
  constructor
  · rw [show padTo4096 [242, 15, 0, 0] = [242, 15, 0, 0] ++ List.replicate 4092 0 from rfl]
    simp only [Packet.unpack]
    rw [slice4_pad_left [242, 15, 0, 0] 4092 0 (by norm_num),
      slice4_pad_right [242, 15, 0, 0] 4092 4 (by norm_num) (by norm_num),
      slice4_pad_right [242, 15, 0, 0] 4092 8 (by norm_num) (by norm_num),
      drop12_pad_short [242, 15, 0, 0] 4092 (by norm_num),
      sliceToInclusive_replicate_oob _ _ (by decide)]
    decide
  · rw [show padTo4096 [] = [] ++ List.replicate 4096 0 from rfl]
    simp only [Packet.unpack]
    rw [slice4_pad_right [] 4096 0 (by norm_num) (by norm_num),
      slice4_pad_right [] 4096 4 (by norm_num) (by norm_num),
      slice4_pad_right [] 4096 8 (by norm_num) (by norm_num),
      drop12_pad_short [] 4096 (by norm_num),
      sliceToInclusive_replicate _ _ (by decide)]
    decide

/-- C3 counterexample: `Client::auth` writes exactly one packet — the Auth
packet with id 1 — and no sentinel Exec packet, and a reply bearing the
claimed sentinel id 2 does not complete the handshake (the loop keeps
reading). -/
theorem auth_sends_no_sentinel :
    (Client.auth [115, 101, 99, 114, 101, 116] []).1
        = [Packet.mk 1 PacketType.Auth (some [115, 101, 99, 114, 101, 116])] ∧
    (Client.auth [115, 101, 99, 114, 101, 116] []).1.length ≠ 2 ∧
    (Client.auth [115, 101, 99, 114, 101, 116]
        [Packet.mk 2 PacketType.AuthResponse (some [])]).2 = none :=
  ⟨rfl, by decide, rfl⟩

/-- C3 amended: during connect, `Client::auth` sends only the Auth packet
(id 1) and no sentinel; the handshake completes successfully exactly when a
packet with the Auth packet's id and type AuthResponse is received with no
id = -1 packet and no earlier completing packet before it; all other
packets before it are ignored. -/
theorem auth_no_sentinel_completion (pw : List Nat) (replies : List Packet) :
    (Client.auth pw replies).1 = [Packet.new 1 PacketType.Auth pw] ∧
    ((Client.auth pw replies).2 = some (Except.ok ()) ↔
      ∃ pre p post, replies = pre ++ p :: post ∧ p.id = 1 ∧
        p.packet_type = PacketType.AuthResponse ∧
        ∀ q ∈ pre, q.id ≠ -1 ∧ ¬(q.id = 1 ∧ q.packet_type = PacketType.AuthResponse)) :=
  ⟨rfl, authLoop_ok_iff replies⟩

/-- C3 witness: a lone AuthResponse reply with id 1 completes the
handshake. -/
theorem auth_no_sentinel_completion_witness :
    (Client.auth [] [Packet.mk 1 PacketType.AuthResponse none]).2 = some (Except.ok ()) :=
  ((auth_no_sentinel_completion [] [Packet.mk 1 PacketType.AuthResponse none]).2).mpr
    ⟨[], Packet.mk 1 PacketType.AuthResponse none, [], rfl, rfl, rfl, by simp⟩

/-- C4: whenever the reply stream contains a packet bearing the tracking
packet's id, `Client::execute` returns a response whose body is the
concatenation, in receipt order, of the bodies (empty for an absent body)
of exactly the packets before the first such packet; the tracking packet
itself contributes nothing. -/
theorem execute_joins_bodies_before_tracking (c : Client) (cmd : List Nat)
    (replies : List Packet)
    (h : ∃ p ∈ replies, p.id = (create_packet (create_packet c cmd).2 []).1.id) :
    (Client.execute c cmd replies).2 = some
      (((replies.takeWhile
            (fun p => p.id != (create_packet (create_packet c cmd).2 []).1.id)).map
          (fun p => p.body.getD [])).flatten,
        (create_packet (create_packet c cmd).2 []).2) := by
  have hstep : (Client.execute c cmd replies).2
      = (executeLoop (create_packet (create_packet c cmd).2 []).1.id replies).map
          (fun responses => ((responses.map (fun p => p.body.getD [])).flatten,
            (create_packet (create_packet c cmd).2 []).2)) := rfl
  rw [hstep, executeLoop_eq_takeWhile _ _ h]
  rfl

/-- C4 witness: the first command on a fresh session uses ids (101, 102),
and replies [id=101 "line1"], [id=101 "line2"], [id=102 ""] yield the body
"line1line2". -/
theorem execute_joins_bodies_before_tracking_witness :
    (Client.execute connectedClient [115, 116, 97, 116, 117, 115]
        [Packet.mk 101 PacketType.Response (some [108, 105, 110, 101, 49]),
         Packet.mk 101 PacketType.Response (some [108, 105, 110, 101, 50]),
         Packet.mk 102 PacketType.Response (some [])]).2
      = some ([108, 105, 110, 101, 49, 108, 105, 110, 101, 50], Client.mk 102) := by
  have h := execute_joins_bodies_before_tracking connectedClient [115, 116, 97, 116, 117, 115]
    [Packet.mk 101 PacketType.Response (some [108, 105, 110, 101, 49]),
     Packet.mk 101 PacketType.Response (some [108, 105, 110, 101, 50]),
     Packet.mk 102 PacketType.Response (some [])]
    ⟨Packet.mk 102 PacketType.Response (some []), by decide, by decide⟩
  exact h.trans (by decide)

/-- C5: for every packet whose body byte length + 10 fits in an i32 (all
packets that can appear on the wire), `Packet::pack` emits the 4-byte
little-endian size, id and type code, then the body bytes (empty when
absent), then the two 0x00 terminators; the emitted size field equals body
byte length + 10, and the total encoded length is size + 4. -/
theorem pack_wire_layout (p : Packet) (h : (p.body.getD []).length + 10 < 2147483648) :
    Packet.pack p
        = toLeBytes (((p.body.getD []).length : Int) + 10) ++ toLeBytes p.id
          ++ toLeBytes p.packet_type.code ++ p.body.getD [] ++ [0, 0] ∧
    Packet.size p = ((p.body.getD []).length : Int) + 10 ∧
    (Packet.pack p).length = (Packet.size p).toNat + 4 := by
  have hsize : Packet.size p = ((p.body.getD []).length : Int) + 10 := by
    cases hb : p.body with
    | none => simp [Packet.size, hb]
    | some body =>
      rw [hb] at h
      simp only [Option.getD_some] at h
      simp only [Packet.size, hb, Option.getD_some]
      rw [wrap32_id ((body.length : Int)) (by omega) (by omega),
        wrap32_id ((body.length : Int) + 10) (by omega) (by omega)]
  refine ⟨?_, hsize, ?_⟩
  · unfold Packet.pack
    rw [hsize]
  · unfold Packet.pack
    rw [hsize]
    simp [toLeBytes, List.length_append]
    omega

/-- C5 witness: packing Packet::new(7, Exec, "hi") yields exactly the
16-byte wire image with size field 12. -/
theorem pack_wire_layout_witness :
    Packet.pack (Packet.new 7 PacketType.Exec [104, 105])
      = [12, 0, 0, 0, 7, 0, 0, 0, 2, 0, 0, 0, 104, 105, 0, 0] :=
  ((pack_wire_layout (Packet.new 7 PacketType.Exec [104, 105]) (by decide)).1).trans (by decide)

/-- C6: bytes beyond the declared body are not ignored. Two 4096-byte
buffers with size field 11 (body_length 1) that agree on bytes 0 through
12 = 11 + body_length but differ at byte 13 decode to different packets,
because unpack reads body_length + 13 bytes from offset 12. -/
theorem unpack_reads_beyond_declared_body :
    (padTo4096 [11, 0, 0, 0, 7, 0, 0, 0, 0, 0, 0, 0, 65]).take 13
        = (padTo4096 [11, 0, 0, 0, 7, 0, 0, 0, 0, 0, 0, 0, 65, 66]).take 13 ∧
    Packet.unpack (padTo4096 [11, 0, 0, 0, 7, 0, 0, 0, 0, 0, 0, 0, 65])
      ≠ Packet.unpack (padTo4096 [11, 0, 0, 0, 7, 0, 0, 0, 0, 0, 0, 0, 65, 66]) := by
  have e1 : Packet.unpack (padTo4096 [11, 0, 0, 0, 7, 0, 0, 0, 0, 0, 0, 0, 65])
      = UnpackResult.ok (Packet.mk 7 PacketType.Response (some (65 :: List.replicate 13 0))) := by
    rw [show padTo4096 [11, 0, 0, 0, 7, 0, 0, 0, 0, 0, 0, 0, 65]
        = [11, 0, 0, 0, 7, 0, 0, 0, 0, 0, 0, 0, 65] ++ List.replicate 4083 0 from rfl]
    simp only [Packet.unpack]
    rw [slice4_pad_left [11, 0, 0, 0, 7, 0, 0, 0, 0, 0, 0, 0, 65] 4083 0 (by norm_num),
      slice4_pad_left [11, 0, 0, 0, 7, 0, 0, 0, 0, 0, 0, 0, 65] 4083 4 (by norm_num),
      slice4_pad_left [11, 0, 0, 0, 7, 0, 0, 0, 0, 0, 0, 0, 65] 4083 8 (by norm_num),
      drop12_pad [11, 0, 0, 0, 7, 0, 0, 0, 0, 0, 0, 0, 65] 4083 (by norm_num),
      sliceToInclusive_pad (List.drop 12 [11, 0, 0, 0, 7, 0, 0, 0, 0, 0, 0, 0, 65]) 4083 _
        (by decide) (by decide)]
    decide
  have e2 : Packet.unpack (padTo4096 [11, 0, 0, 0, 7, 0, 0, 0, 0, 0, 0, 0, 65, 66])
      = UnpackResult.ok (Packet.mk 7 PacketType.Response
          (some (65 :: 66 :: List.replicate 12 0))) := by
    rw [show padTo4096 [11, 0, 0, 0, 7, 0, 0, 0, 0, 0, 0, 0, 65, 66]
        = [11, 0, 0, 0, 7, 0, 0, 0, 0, 0, 0, 0, 65, 66] ++ List.replicate 4082 0 from rfl]
    simp only [Packet.unpack]
    rw [slice4_pad_left [11, 0, 0, 0, 7, 0, 0, 0, 0, 0, 0, 0, 65, 66] 4082 0 (by norm_num),
      slice4_pad_left [11, 0, 0, 0, 7, 0, 0, 0, 0, 0, 0, 0, 65, 66] 4082 4 (by norm_num),
      slice4_pad_left [11, 0, 0, 0, 7, 0, 0, 0, 0, 0, 0, 0, 65, 66] 4082 8 (by norm_num),
      drop12_pad [11, 0, 0, 0, 7, 0, 0, 0, 0, 0, 0, 0, 65, 66] 4082 (by norm_num),
      sliceToInclusive_pad (List.drop 12 [11, 0, 0, 0, 7, 0, 0, 0, 0, 0, 0, 0, 65, 66]) 4082 _
        (by decide) (by decide)]
    decide
  refine ⟨?_, ?_⟩
  · rw [show padTo4096 [11, 0, 0, 0, 7, 0, 0, 0, 0, 0, 0, 0, 65]
        = [11, 0, 0, 0, 7, 0, 0, 0, 0, 0, 0, 0, 65] ++ List.replicate 4083 0 from rfl,
      show padTo4096 [11, 0, 0, 0, 7, 0, 0, 0, 0, 0, 0, 0, 65, 66]
        = [11, 0, 0, 0, 7, 0, 0, 0, 0, 0, 0, 0, 65, 66] ++ List.replicate 4082 0 from rfl,
      take_pad_left [11, 0, 0, 0, 7, 0, 0, 0, 0, 0, 0, 0, 65] 4083 13 (by norm_num),
      take_pad_left [11, 0, 0, 0, 7, 0, 0, 0, 0, 0, 0, 0, 65, 66] 4082 13 (by norm_num)]
    decide
  · rw [e1, e2]
    decide

/-- C7: during the handshake, a received packet with id -1 makes auth fail
with an authentication error whenever it arrives before any completing
packet — the -1 check precedes the success check on every received
packet. -/
theorem auth_fails_on_minus_one (pw : List Nat) (pre post : List Packet) (p : Packet)
    (hp : p.id = -1)
    (hpre : ∀ q ∈ pre, ¬(q.id = 1 ∧ q.packet_type = PacketType.AuthResponse)) :
    (Client.auth pw (pre ++ p :: post)).2
      = some (Except.error RconError.AuthenticationError) :=
  authLoop_err pre p post hp hpre

/-- C7 witness: an id -1 reply arriving after an ignored packet still fails
authentication. -/
theorem auth_fails_on_minus_one_witness :
    (Client.auth [] [Packet.mk 5 PacketType.Response (some []),
        Packet.mk (-1) PacketType.AuthResponse none]).2
      = some (Except.error RconError.AuthenticationError) :=
  auth_fails_on_minus_one [] [Packet.mk 5 PacketType.Response (some [])] []
    (Packet.mk (-1) PacketType.AuthResponse none) rfl (by decide)

/-- C8: the type-code decoder maps 3 to Auth, 2 to AuthResponse and never
to Exec, 0 to Response, and every other code to an unknown-packet-type
error. -/
theorem packet_type_decode_total (n : Int) :
    tryIntoPacketType 3 = Except.ok PacketType.Auth ∧
    tryIntoPacketType 2 = Except.ok PacketType.AuthResponse ∧
    tryIntoPacketType 2 ≠ Except.ok PacketType.Exec ∧
    tryIntoPacketType 0 = Except.ok PacketType.Response ∧
    (n ≠ 3 → n ≠ 2 → n ≠ 0 →
      tryIntoPacketType n = Except.error (RconError.UnknownPacketType n)) := by
  refine ⟨rfl, rfl, by simp [tryIntoPacketType], rfl, ?_⟩
  intro h1 h2 h3
  unfold tryIntoPacketType
  rw [if_neg h1, if_neg h2, if_neg h3]

/-- C8 witness: code 7 is rejected as an unknown packet type. -/
theorem packet_type_decode_total_witness :
    tryIntoPacketType 7 = Except.error (RconError.UnknownPacketType 7) :=
  (packet_type_decode_total 7).2.2.2.2 (by decide) (by decide) (by decide)

/-- C9: a connected session's counter starts at 100, so as long as the
counter stays within the i32 range the assigned ids are 101, 102, … — all
strictly greater than 100, strictly increasing, with no id assigned twice;
each execute call writes the command packet and then the tracking packet
under two consecutive fresh ids, the first command using (101, 102). -/
theorem session_ids (n : Nat) (cmd : List Nat) (hn : n ≤ 2147483547) :
    idsAfter connectedClient n = (List.range n).map (fun k : Nat => 101 + (k : Int)) ∧
    (∀ x ∈ idsAfter connectedClient n, 100 < x) ∧
    (idsAfter connectedClient n).Pairwise (fun a b => a < b) ∧
    (idsAfter connectedClient n).Nodup ∧
    (∀ m : Nat, m ≤ 2147483545 →
      ((Client.execute (Client.mk (100 + (m : Int))) cmd []).1).map Packet.id
        = [101 + (m : Int), 102 + (m : Int)]) ∧
    ((Client.execute connectedClient cmd []).1).map Packet.id = [101, 102] := by
  have hc : idsAfter connectedClient n = (List.range n).map (fun k : Nat => 101 + (k : Int)) := by
    have := idsAfter_closed n 100 (by norm_num) (by omega)
    rw [show connectedClient = Client.mk 100 from rfl, this]
    refine List.map_congr_left ?_
    intro k hk
    omega
  have hpw : (idsAfter connectedClient n).Pairwise (fun a b => a < b) := by
    rw [hc]
    refine List.Pairwise.map _ ?_ (List.pairwise_lt_range n)
    intro a b hab
    omega
  refine ⟨hc, ?_, hpw, ?_, ?_, ?_⟩
  · intro x hx
    rw [hc] at hx
    rcases List.mem_map.mp hx with ⟨k, -, hk⟩
    omega
  · exact hpw.imp (fun h => ne_of_lt h)
  · intro m hm
    have w1 : wrap32 (100 + (m : Int) + 1) = 101 + m := by
      unfold wrap32
      omega
    have w2 : wrap32 (101 + (m : Int) + 1) = 102 + m := by
      unfold wrap32
      omega
    have hstruct : ((Client.execute (Client.mk (100 + (m : Int))) cmd []).1).map Packet.id
        = [wrap32 (100 + (m : Int) + 1), wrap32 (wrap32 (100 + (m : Int) + 1) + 1)] := rfl
    rw [hstruct, w1, w2]
  · have hstruct : ((Client.execute connectedClient cmd []).1).map Packet.id
        = [wrap32 (connectedClient.next_packet_id + 1),
           wrap32 (wrap32 (connectedClient.next_packet_id + 1) + 1)] := rfl
    rw [hstruct]
    decide

/-- C9 witness: the first two ids assigned by a fresh session are 101 and
102. -/
theorem session_ids_witness : idsAfter connectedClient 2 = [101, 102] := by
  have h := (session_ids 2 [] (by norm_num)).1
  exact h.trans (by decide)

/-- C10: the auth loop returns success only upon a packet whose id equals
the Auth packet's id (1) and whose type is AuthResponse; a received packet
with id not -1 failing either condition is silently skipped and reading
continues. -/
theorem auth_skips_non_matching (pw : List Nat) (r : Packet) (rest : List Packet)
    (h1 : r.id ≠ -1) (h2 : ¬(r.id = 1 ∧ r.packet_type = PacketType.AuthResponse)) :
    (Client.auth pw (r :: rest)).2 = (Client.auth pw rest).2 ∧
    (∀ replies : List Packet, (Client.auth pw replies).2 = some (Except.ok ()) →
      ∃ pre p post, replies = pre ++ p :: post ∧ p.id = 1 ∧
        p.packet_type = PacketType.AuthResponse) := by
  constructor
  · exact authLoop_skip 1 r rest h1 h2
  · intro replies h
    rcases (authLoop_ok_iff replies).mp h with ⟨pre, p, post, heq, hid, hty, -⟩
    exact ⟨pre, p, post, heq, hid, hty⟩

/-- C10 witness: a Response-typed packet with id 1 is skipped, leaving the
loop in the same state as an empty reply stream. -/
theorem auth_skips_non_matching_witness :
    (Client.auth [] [Packet.mk 1 PacketType.Response (some [])]).2
      = (Client.auth [] []).2 :=
  (auth_skips_non_matching [] (Packet.mk 1 PacketType.Response (some [])) []
    (by decide) (by decide)).1
